import Mathlib

/-!
Shallow embedding of `comp.py`: a lexer and recursive-descent parser for
arithmetic expressions (numbers, `+ - * / ^ !`, `sin`, `cos`, parentheses).

The lexer scans left to right, trying the token patterns in the fixed
priority order of the `TOKEN_TYPES` dictionary with anchored matches; the
regex `\d+(\.\d+)?` is embedded with `\d` read as a decimal digit `0-9`.
Since every pattern consumes at least one character, the scanning loop is
embedded with a fuel argument initialised to the input length, which makes
the definition structurally recursive and kernel-computable.

The parser's mutually recursive rule procedures mutate a cursor and a
derivation log in Python; here the `Parser` record is threaded explicitly
and exceptions become `Except` values.  Python's call stack is modelled by
a fuel argument: `PError.outOfFuel` for every fuel marks non-termination
(Python's `RecursionError`), while `PError.valueError` carries the exact
`ValueError` message the code raises.
-/

namespace Comp

inductive TokenType where
  | NUMBER
  | PLUS
  | MINUS
  | MULTIPLY
  | DIVIDE
  | CARET
  | FACTORIAL
  | SIN
  | COS
  | LPAREN
  | RPAREN
  | EOF
deriving DecidableEq, Repr

def TokenType.name : TokenType → String
  | .NUMBER => "NUMBER"
  | .PLUS => "PLUS"
  | .MINUS => "MINUS"
  | .MULTIPLY => "MULTIPLY"
  | .DIVIDE => "DIVIDE"
  | .CARET => "CARET"
  | .FACTORIAL => "FACTORIAL"
  | .SIN => "SIN"
  | .COS => "COS"
  | .LPAREN => "LPAREN"
  | .RPAREN => "RPAREN"
  | .EOF => "EOF"

/-- A token is the pair `(token_type, lexeme)` exactly as in the Python code. -/
abbrev Token := TokenType × String

/-- Anchored match of the regex `\d+(\.\d+)?` at the head of `cs`:
greedily take digits, then optionally a dot followed by at least one digit.
Returns the lexeme and the unconsumed rest. -/
def matchNumber (cs : List Char) : Option (String × List Char) :=
  let ds := cs.takeWhile Char.isDigit
  if ds.isEmpty then none
  else
    match cs.dropWhile Char.isDigit with
    | '.' :: r2 =>
      let fs := r2.takeWhile Char.isDigit
      if fs.isEmpty then some (String.mk ds, cs.dropWhile Char.isDigit)
      else some (String.mk (ds ++ '.' :: fs), r2.dropWhile Char.isDigit)
    | r => some (String.mk ds, r)

/-- Anchored match of a literal pattern (all the non-NUMBER regexes of
`TOKEN_TYPES` are literals once the escaping is removed). -/
def matchLit (s : List Char) (cs : List Char) : Option (String × List Char) :=
  if s.isPrefixOf cs then some (String.mk s, cs.drop s.length) else none

/-- Anchored match of the pattern of one token type, mirroring `TOKEN_TYPES`. -/
def tokenMatch (tt : TokenType) (cs : List Char) : Option (String × List Char) :=
  match tt with
  | .NUMBER => matchNumber cs
  | .PLUS => matchLit ['+'] cs
  | .MINUS => matchLit ['-'] cs
  | .MULTIPLY => matchLit ['*'] cs
  | .DIVIDE => matchLit ['/'] cs
  | .CARET => matchLit ['^'] cs
  | .FACTORIAL => matchLit ['!'] cs
  | .SIN => matchLit ['s', 'i', 'n'] cs
  | .COS => matchLit ['c', 'o', 's'] cs
  | .LPAREN => matchLit ['('] cs
  | .RPAREN => matchLit [')'] cs
  | .EOF => none

/-- Iteration order of the `TOKEN_TYPES` dictionary (Python preserves
insertion order). -/
def tokenOrder : List TokenType :=
  [.NUMBER, .PLUS, .MINUS, .MULTIPLY, .DIVIDE, .CARET, .FACTORIAL,
   .SIN, .COS, .LPAREN, .RPAREN]

/-- The inner `for token_type, pattern in TOKEN_TYPES.items()` loop:
first pattern that matches at the current position wins. -/
def tryFrom (l : List TokenType) (cs : List Char) : Option (Token × List Char) :=
  match l with
  | [] => none
  | tt :: rest =>
    match tokenMatch tt cs with
    | some (lx, r) => some ((tt, lx), r)
    | none => tryFrom rest cs

def tryTokens (cs : List Char) : Option (Token × List Char) :=
  tryFrom tokenOrder cs

/-- The `while index < len(expression)` loop of `lexer`, with fuel standing
for the loop bound.  Every successful pattern match consumes at least one
character, so `fuel = length of the input` never runs out. -/
def lexerAux : Nat → List Char → Except String (List Token)
  | _, [] => Except.ok [(TokenType.EOF, "EOF")]
  | 0, _ :: _ => Except.error "out of fuel"
  | fuel + 1, c :: cs =>
    match tryTokens (c :: cs) with
    | some (t, r) =>
      match lexerAux fuel r with
      | Except.ok ts => Except.ok (t :: ts)
      | Except.error e => Except.error e
    | none => Except.error ("Unexpected character: " ++ String.mk [c])

/-- `lexer(expression)`: token list terminated by `('EOF', 'EOF')`, or the
`ValueError` message `"Unexpected character: ..."`. -/
def lexer (cs : List Char) : Except String (List Token) :=
  lexerAux cs.length cs

/-- `ASTNode(value, children)`. -/
inductive ASTNode where
  | mk (value : String) (children : List ASTNode)

def ASTNode.value : ASTNode → String
  | .mk v _ => v

def ASTNode.children : ASTNode → List ASTNode
  | .mk _ c => c

/-- Errors a parser run can produce: a Python `ValueError` with its message,
or exhaustion of the fuel that models Python's call stack. -/
inductive PError where
  | valueError (msg : String)
  | outOfFuel
deriving DecidableEq, Repr

/-- The mutable state of the `Parser` object. -/
structure Parser where
  tokens : List Token
  index : Nat
  current_token : Token
  derivation_steps : List String
deriving DecidableEq, Repr

/-- `Parser.__init__`: `current_token = tokens[0]` raises `IndexError` on an
empty list, modelled by `none`. -/
def Parser.init (ts : List Token) : Option Parser :=
  match ts with
  | [] => none
  | t :: rest => some ⟨t :: rest, 0, t, []⟩

/-- `advance`: increment the index unconditionally; refresh `current_token`
only while the new index is in range. -/
def Parser.advance (p : Parser) : Parser :=
  if h : p.index + 1 < p.tokens.length then
    ⟨p.tokens, p.index + 1, p.tokens.get ⟨p.index + 1, h⟩, p.derivation_steps⟩
  else
    ⟨p.tokens, p.index + 1, p.current_token, p.derivation_steps⟩

/-- `self.derivation_steps.append(s)`. -/
def Parser.addStep (p : Parser) (s : String) : Parser :=
  ⟨p.tokens, p.index, p.current_token, p.derivation_steps ++ [s]⟩

/-- The `match` method: consume the current token if its type agrees,
returning its lexeme, else raise the `Syntax Error: Expected ...` message. -/
def Parser.matchToken (p : Parser) (tt : TokenType) : Except PError (String × Parser) :=
  if p.current_token.1 = tt then
    Except.ok (p.current_token.2, p.advance)
  else
    Except.error (PError.valueError
      ("Syntax Error: Expected " ++ tt.name ++ ", found " ++ p.current_token.1.name))

mutual

def parse_E (fuel : Nat) (p : Parser) : Except PError (ASTNode × Parser) :=
  match fuel with
  | 0 => Except.error PError.outOfFuel
  | f + 1 =>
    let p1 := p.addStep "E -> T E\x27"
    match parse_T f p1 with
    | Except.error e => Except.error e
    | Except.ok (left, p2) => parse_E_PRIME f left p2

def parse_E_PRIME (fuel : Nat) (left : ASTNode) (p : Parser) : Except PError (ASTNode × Parser) :=
  match fuel with
  | 0 => Except.error PError.outOfFuel
  | f + 1 =>
    if p.current_token.1 = TokenType.PLUS then
      let p1 := p.addStep "E\x27 -> + T E\x27"
      match p1.matchToken TokenType.PLUS with
      | Except.error e => Except.error e
      | Except.ok (_, p2) =>
        match parse_T f p2 with
        | Except.error e => Except.error e
        | Except.ok (right, p3) => parse_E_PRIME f (ASTNode.mk "+" [left, right]) p3
    else if p.current_token.1 = TokenType.MINUS then
      let p1 := p.addStep "E\x27 -> - T E\x27"
      match p1.matchToken TokenType.MINUS with
      | Except.error e => Except.error e
      | Except.ok (_, p2) =>
        match parse_T f p2 with
        | Except.error e => Except.error e
        | Except.ok (right, p3) => parse_E_PRIME f (ASTNode.mk "-" [left, right]) p3
    else
      Except.ok (left, p.addStep "E\x27 -> ε")

def parse_T (fuel : Nat) (p : Parser) : Except PError (ASTNode × Parser) :=
  match fuel with
  | 0 => Except.error PError.outOfFuel
  | f + 1 =>
    let p1 := p.addStep "T -> F T\x27"
    match parse_F f p1 with
    | Except.error e => Except.error e
    | Except.ok (left, p2) => parse_T_PRIME f left p2

def parse_T_PRIME (fuel : Nat) (left : ASTNode) (p : Parser) : Except PError (ASTNode × Parser) :=
  match fuel with
  | 0 => Except.error PError.outOfFuel
  | f + 1 =>
    if p.current_token.1 = TokenType.MULTIPLY then
      let p1 := p.addStep "T\x27 -> * F T\x27"
      match p1.matchToken TokenType.MULTIPLY with
      | Except.error e => Except.error e
      | Except.ok (_, p2) =>
        match parse_F f p2 with
        | Except.error e => Except.error e
        | Except.ok (right, p3) => parse_T_PRIME f (ASTNode.mk "*" [left, right]) p3
    else if p.current_token.1 = TokenType.DIVIDE then
      let p1 := p.addStep "T\x27 -> / F T\x27"
      match p1.matchToken TokenType.DIVIDE with
      | Except.error e => Except.error e
      | Except.ok (_, p2) =>
        match parse_F f p2 with
        | Except.error e => Except.error e
        | Except.ok (right, p3) => parse_T_PRIME f (ASTNode.mk "/" [left, right]) p3
    else
      Except.ok (left, p.addStep "T\x27 -> ε")

def parse_F (fuel : Nat) (p : Parser) : Except PError (ASTNode × Parser) :=
  match fuel with
  | 0 => Except.error PError.outOfFuel
  | f + 1 =>
    if p.current_token.1 = TokenType.LPAREN then
      let p1 := p.addStep "F -> ( E )"
      match p1.matchToken TokenType.LPAREN with
      | Except.error e => Except.error e
      | Except.ok (_, p2) =>
        match parse_E f p2 with
        | Except.error e => Except.error e
        | Except.ok (node, p3) =>
          match p3.matchToken TokenType.RPAREN with
          | Except.error e => Except.error e
          | Except.ok (_, p4) => Except.ok (node, p4)
    else if p.current_token.1 = TokenType.NUMBER then
      let p1 := p.addStep "F -> NUMBER"
      match p1.matchToken TokenType.NUMBER with
      | Except.error e => Except.error e
      | Except.ok (value, p2) => Except.ok (ASTNode.mk value [], p2)
    else if p.current_token.1 = TokenType.SIN then
      let p1 := p.addStep "F -> sin F"
      match p1.matchToken TokenType.SIN with
      | Except.error e => Except.error e
      | Except.ok (_, p2) =>
        match parse_F f p2 with
        | Except.error e => Except.error e
        | Except.ok (child, p3) => Except.ok (ASTNode.mk "sin" [child], p3)
    else if p.current_token.1 = TokenType.COS then
      let p1 := p.addStep "F -> cos F"
      match p1.matchToken TokenType.COS with
      | Except.error e => Except.error e
      | Except.ok (_, p2) =>
        match parse_F f p2 with
        | Except.error e => Except.error e
        | Except.ok (child, p3) => Except.ok (ASTNode.mk "cos" [child], p3)
    else if p.current_token.1 = TokenType.CARET then
      let p1 := p.addStep "F -> F ^ F"
      match parse_F f p1 with
      | Except.error e => Except.error e
      | Except.ok (left, p2) =>
        match p2.matchToken TokenType.CARET with
        | Except.error e => Except.error e
        | Except.ok (_, p3) =>
          match parse_F f p3 with
          | Except.error e => Except.error e
          | Except.ok (right, p4) => Except.ok (ASTNode.mk "^" [left, right], p4)
    else if p.current_token.1 = TokenType.FACTORIAL then
      let p1 := p.addStep "F -> F !"
      match parse_F f p1 with
      | Except.error e => Except.error e
      | Except.ok (child, p2) =>
        match p2.matchToken TokenType.FACTORIAL with
        | Except.error e => Except.error e
        | Except.ok (_, p3) => Except.ok (ASTNode.mk "!" [child], p3)
    else
      Except.error (PError.valueError
        ("Syntax Error: Unexpected token " ++ p.current_token.1.name))

end

/-- Top-level `parse`: one `E`, then the current token must be `EOF`;
returns the AST together with the derivation log. -/
def Parser.parse (fuel : Nat) (p : Parser) : Except PError (ASTNode × List String) :=
  match parse_E fuel p with
  | Except.error e => Except.error e
  | Except.ok (ast, p2) =>
    if p2.current_token.1 = TokenType.EOF then
      Except.ok (ast, p2.derivation_steps)
    else
      Except.error (PError.valueError
        ("Syntax Error: Unexpected token " ++ p2.current_token.1.name))

/-- The whole pipeline as run by `main`: lex, construct the parser, parse. -/
def analyze (s : String) (fuel : Nat) : Except PError (ASTNode × List String) :=
  match lexer s.data with
  | Except.error e => Except.error (PError.valueError e)
  | Except.ok ts =>
    match Parser.init ts with
    | none => Except.error (PError.valueError "IndexError: list index out of range")
    | some p => p.parse fuel

/-! ### Lemmas about the token matchers -/

theorem takeWhile_of_all {α : Type} {p : α → Bool} :
    ∀ {l : List α}, (∀ a ∈ l, p a = true) → l.takeWhile p = l ∧ l.dropWhile p = []
  | [], _ => ⟨rfl, rfl⟩
  | a :: l, h => by
    have ha : p a = true := h a (List.mem_cons_self a l)
    have ih := takeWhile_of_all (fun b hb => h b (List.mem_cons_of_mem a hb))
    simp [List.takeWhile_cons, List.dropWhile_cons, ha, ih.1, ih.2]

theorem matchLit_eq_some {s cs : List Char} {lx : String} {r : List Char}
    (h : matchLit s cs = some (lx, r)) : lx.data = s ∧ s ++ r = cs := by
  unfold matchLit at h
  split at h
  · rename_i hpre
    obtain ⟨t, rfl⟩ := List.isPrefixOf_iff_prefix.mp hpre
    obtain ⟨rfl, rfl⟩ := Prod.mk.injEq .. ▸ Option.some.inj h
    exact ⟨rfl, by rw [List.drop_left]⟩
  · exact absurd h (by simp)

theorem matchNumber_eq_some {cs : List Char} {lx : String} {r : List Char}
    (h : matchNumber cs = some (lx, r)) : lx.data ≠ [] ∧ lx.data ++ r = cs := by
  unfold matchNumber at h
  simp only [] at h
  split at h
  · exact absurd h (by simp)
  · rename_i hne
    have hds : cs.takeWhile Char.isDigit ≠ [] := by simpa using hne
    split at h
    · rename_i r2 hdrop
      split at h
      · obtain ⟨rfl, rfl⟩ := Prod.mk.injEq .. ▸ Option.some.inj h
        exact ⟨hds, by rw [List.takeWhile_append_dropWhile]⟩
      · rename_i hfs
        obtain ⟨rfl, rfl⟩ := Prod.mk.injEq .. ▸ Option.some.inj h
        refine ⟨by simp, ?_⟩
        have : cs.takeWhile Char.isDigit ++ '.' ::
            (r2.takeWhile Char.isDigit ++ r2.dropWhile Char.isDigit) = cs := by
          rw [List.takeWhile_append_dropWhile, ← hdrop, List.takeWhile_append_dropWhile]
        simpa using this
    · obtain ⟨rfl, rfl⟩ := Prod.mk.injEq .. ▸ Option.some.inj h
      exact ⟨hds, by rw [List.takeWhile_append_dropWhile]⟩

theorem tokenMatch_eq_some {tt : TokenType} {cs : List Char} {lx : String} {r : List Char}
    (h : tokenMatch tt cs = some (lx, r)) : lx.data ≠ [] ∧ lx.data ++ r = cs := by
  cases tt <;> simp only [tokenMatch] at h
  case NUMBER => exact matchNumber_eq_some h
  all_goals
    first
    | exact absurd h (by simp)
    | · obtain ⟨h1, h2⟩ := matchLit_eq_some h
        exact ⟨by simp [h1], by rw [h1]; exact h2⟩

theorem tryFrom_eq_some {l : List TokenType} {cs : List Char} {t : Token} {r : List Char}
    (h : tryFrom l cs = some (t, r)) :
    t.1 ∈ l ∧ t.2.data ≠ [] ∧ t.2.data ++ r = cs := by
  induction l with
  | nil => exact absurd h (by simp [tryFrom])
  | cons tt rest ih =>
    simp only [tryFrom] at h
    split at h
    · rename_i lx r2 hm
      obtain ⟨rfl, rfl⟩ := Prod.mk.injEq .. ▸ Option.some.inj h
      obtain ⟨h1, h2⟩ := tokenMatch_eq_some hm
      exact ⟨List.mem_cons_self .., h1, h2⟩
    · obtain ⟨h1, h2, h3⟩ := ih h
      exact ⟨List.mem_cons_of_mem _ h1, h2, h3⟩

theorem tryTokens_eq_some {cs : List Char} {t : Token} {r : List Char}
    (h : tryTokens cs = some (t, r)) :
    t.1 ≠ TokenType.EOF ∧ t.2.data ≠ [] ∧ t.2.data ++ r = cs := by
  obtain ⟨h1, h2, h3⟩ := tryFrom_eq_some h
  refine ⟨?_, h2, h3⟩
  have : ∀ x ∈ tokenOrder, x ≠ TokenType.EOF := by decide
  exact this t.1 h1

theorem tryTokens_length_lt {cs : List Char} {t : Token} {r : List Char}
    (h : tryTokens cs = some (t, r)) : r.length < cs.length := by
  obtain ⟨_, h2, h3⟩ := tryTokens_eq_some h
  have : t.2.data.length + r.length = cs.length := by
    rw [← List.length_append, h3]
  have hpos : 0 < t.2.data.length := List.length_pos.mpr h2
  omega

/-! ### Lemmas about the lexer loop -/

theorem lexerAux_ok : ∀ (fuel : Nat) (cs : List Char) (ts : List Token),
    cs.length ≤ fuel → lexerAux fuel cs = Except.ok ts →
    ts ≠ [] ∧ ts.getLast? = some (TokenType.EOF, "EOF") ∧
    (∀ t ∈ ts.dropLast, t.1 ≠ TokenType.EOF) ∧
    (ts.dropLast.map (fun t => t.2.data)).flatten = cs := by
  intro fuel
  induction fuel with
  | zero =>
    intro cs ts hf h
    cases cs with
    | nil =>
      obtain rfl := Except.ok.inj h
      refine ⟨by simp, by simp, by simp, by simp⟩
    | cons c cs' => simp at hf
  | succ f ih =>
    intro cs ts hf h
    cases cs with
    | nil =>
      obtain rfl := Except.ok.inj h
      refine ⟨by simp, by simp, by simp, by simp⟩
    | cons c cs' =>
      simp only [lexerAux] at h
      split at h
      · rename_i t r htt
        split at h
        · rename_i ts' hrec
          obtain rfl := Except.ok.inj h
          obtain ⟨hk, hlx, happ⟩ := tryTokens_eq_some htt
          have hlen : r.length ≤ f := by
            have h5 := tryTokens_length_lt htt
            simp only [List.length_cons] at h5 hf
            omega
          obtain ⟨hne, hlast, hkinds, hflat⟩ := ih r ts' hlen hrec
          obtain ⟨b, L, rfl⟩ := List.exists_cons_of_ne_nil hne
          refine ⟨by simp, by rw [List.getLast?_cons_cons]; exact hlast, ?_, ?_⟩
          · intro x hx
            rw [List.dropLast_cons₂] at hx
            rcases List.mem_cons.mp hx with rfl | hx2
            · exact hk
            · exact hkinds x hx2
          · rw [List.dropLast_cons₂, List.map_cons, List.flatten_cons, hflat, happ]
        · exact absurd h (by simp)
      · exact absurd h (by simp)

theorem lexerAux_error : ∀ (fuel : Nat) (cs : List Char) (m : String),
    cs.length ≤ fuel → lexerAux fuel cs = Except.error m →
    ∃ pre c rest, cs = pre ++ c :: rest ∧ tryTokens (c :: rest) = none ∧
      m = "Unexpected character: " ++ String.mk [c] := by
  intro fuel
  induction fuel with
  | zero =>
    intro cs m hf h
    cases cs with
    | nil => exact absurd h (by simp [lexerAux])
    | cons c cs' => simp at hf
  | succ f ih =>
    intro cs m hf h
    cases cs with
    | nil => exact absurd h (by simp [lexerAux])
    | cons c cs' =>
      simp only [lexerAux] at h
      split at h
      · rename_i t r htt
        split at h
        · exact absurd h (by simp)
        · rename_i e hrec
          obtain rfl := Except.error.inj h
          have hlen : r.length ≤ f := by
            have h5 := tryTokens_length_lt htt
            simp only [List.length_cons] at h5 hf
            omega
          obtain ⟨pre, c2, rest, rfl, hnone, rfl⟩ := ih r e hlen hrec
          obtain ⟨_, _, happ⟩ := tryTokens_eq_some htt
          exact ⟨t.2.data ++ pre, c2, rest, by rw [← happ, List.append_assoc], hnone, rfl⟩
      · rename_i htt
        obtain rfl := Except.error.inj h
        exact ⟨[], c, cs', rfl, htt, rfl⟩

/-- A single anchored match that consumes the whole input lexes to exactly
that token followed by EOF. -/
theorem lexer_single {cs : List Char} {t : Token}
    (h : tryTokens cs = some (t, [])) :
    lexer cs = Except.ok [t, (TokenType.EOF, "EOF")] := by
  have hne : cs ≠ [] := by
    intro hnil
    rw [hnil] at h
    have h0 : tryTokens ([] : List Char) = none := rfl
    rw [h0] at h
    exact Option.noConfusion h
  obtain ⟨c, cs', rfl⟩ := List.exists_cons_of_ne_nil hne
  show lexerAux (c :: cs').length (c :: cs') = _
  simp only [List.length_cons, lexerAux, h]

/-- The regex `\d+(\.\d+)?` consumes all of `ds ++ tl` when `ds` is a
non-empty digit run and `tl` is empty or a dot followed by a digit run. -/
theorem matchNumber_full (ds tl : List Char) (h1 : ds ≠ [])
    (h2 : ∀ c ∈ ds, c.isDigit = true)
    (h3 : tl = [] ∨ ∃ es, es ≠ [] ∧ (∀ c ∈ es, c.isDigit = true) ∧ tl = '.' :: es) :
    matchNumber (ds ++ tl) = some (String.mk (ds ++ tl), []) := by
  rcases h3 with rfl | ⟨es, hes, hdig, rfl⟩
  · have hds := takeWhile_of_all h2
    unfold matchNumber
    rw [List.append_nil, hds.1, hds.2]
    simp [h1]
  · have htake : (ds ++ '.' :: es).takeWhile Char.isDigit = ds := by
      rw [List.takeWhile_append_of_pos h2, List.takeWhile_cons_of_neg (by simp),
        List.append_nil]
    have hdrop : (ds ++ '.' :: es).dropWhile Char.isDigit = '.' :: es := by
      rw [List.dropWhile_append_of_pos h2, List.dropWhile_cons_of_neg (by simp)]
    have hesw := takeWhile_of_all hdig
    unfold matchNumber
    rw [htake, hdrop]
    simp [h1, hes, hesw.1, hesw.2]

/-! ### The left-recursive `F -> F ^ F` / `F -> F !` branches never return -/

theorem Parser.addStep_current (p : Parser) (s : String) :
    (p.addStep s).current_token = p.current_token := rfl

/-- Entering `parse_F` while the current token is `CARET` or `FACTORIAL`
recurses into `parse_F` without consuming a token, so the call never
returns: it exhausts every finite fuel (Python: `RecursionError`). -/
theorem parse_F_loop : ∀ (fuel : Nat) (p : Parser),
    p.current_token.1 = TokenType.CARET ∨ p.current_token.1 = TokenType.FACTORIAL →
    parse_F fuel p = Except.error PError.outOfFuel := by
  intro fuel
  induction fuel with
  | zero => intro p _; rfl
  | succ f ih =>
    intro p h
    rcases h with hC | hF
    · simp only [parse_F, hC]
      rw [ih (p.addStep "F -> F ^ F") (Or.inl hC)]
      simp
    · simp only [parse_F, hF]
      rw [ih (p.addStep "F -> F !") (Or.inr hF)]
      simp

theorem parse_T_loop (fuel : Nat) (p : Parser)
    (h : p.current_token.1 = TokenType.CARET ∨ p.current_token.1 = TokenType.FACTORIAL) :
    parse_T fuel p = Except.error PError.outOfFuel := by
  cases fuel with
  | zero => rfl
  | succ f =>
    simp only [parse_T]
    rw [parse_F_loop f (p.addStep "T -> F T\x27") h]

theorem parse_E_loop (fuel : Nat) (p : Parser)
    (h : p.current_token.1 = TokenType.CARET ∨ p.current_token.1 = TokenType.FACTORIAL) :
    parse_E fuel p = Except.error PError.outOfFuel := by
  cases fuel with
  | zero => rfl
  | succ f =>
    simp only [parse_E]
    rw [parse_T_loop f (p.addStep "E -> T E\x27") h]

theorem parse_loop (fuel : Nat) (p : Parser)
    (h : p.current_token.1 = TokenType.CARET ∨ p.current_token.1 = TokenType.FACTORIAL) :
    p.parse fuel = Except.error PError.outOfFuel := by
  simp only [Parser.parse]
  rw [parse_E_loop fuel p h]

/-! ### The claims -/

/-- Claim C1: the spec says parsing `"2^3^4"` succeeds with the
right-associated AST `^(2, ^(3,4))`.  The code does not: `parse_F` never
looks ahead for `^` after a factor, so after parsing the literal `2` the
chain `T -> ε`, `E -> ε` returns to `parse`, which finds `CARET` instead of
`EOF` and raises `Syntax Error: Unexpected token CARET`. -/
theorem claim_C1_caret_chain : analyze "2^3^4" 32 =
    Except.error (PError.valueError "Syntax Error: Unexpected token CARET") := rfl

/-- Claim C2: the spec says parsing `"5!"` succeeds with the AST `!(5)`.
The code does not: after parsing the literal `5` no lookahead for `!`
happens, and `parse` raises `Syntax Error: Unexpected token FACTORIAL`. -/
theorem claim_C2_factorial_postfix : analyze "5!" 32 =
    Except.error (PError.valueError "Syntax Error: Unexpected token FACTORIAL") := rfl

/-- Claim C3: the spec says a `CARET` or `FACTORIAL` token at the entry of
`parse_F` raises a SyntaxError.  The code instead recurses into `parse_F`
without consuming a token and never returns: for every fuel the run ends in
`outOfFuel` (Python: unbounded recursion, `RecursionError`), never in the
claimed `Syntax Error` `ValueError`. -/
theorem claim_C3_entry_caret_factorial (fuel : Nat) (p : Parser)
    (h : p.current_token.1 = TokenType.CARET ∨ p.current_token.1 = TokenType.FACTORIAL) :
    parse_F fuel p = Except.error PError.outOfFuel :=
  parse_F_loop fuel p h

/-- Witness for C3: the parser state produced by lexing `"^2"` makes
`parse_F` run out of any fuel. -/
theorem claim_C3_witness :
    parse_F 5 ⟨[(TokenType.CARET, "^"), (TokenType.NUMBER, "2"), (TokenType.EOF, "EOF")],
      0, (TokenType.CARET, "^"), []⟩ = Except.error PError.outOfFuel :=
  claim_C3_entry_caret_factorial 5 _ (Or.inl rfl)

/-- Claim C4: the spec says every lexer-produced token sequence makes
`Parser.parse` terminate.  The token sequence of `"!5"` is produced by the
lexer, yet the parse exhausts every fuel bound: the recursion never
terminates, contradicting the claim. -/
theorem claim_C4_no_termination (fuel : Nat) :
    analyze "!5" fuel = Except.error PError.outOfFuel := by
  have hlex : lexer "!5".data = Except.ok
      [(TokenType.FACTORIAL, "!"), (TokenType.NUMBER, "5"), (TokenType.EOF, "EOF")] := rfl
  simp only [analyze, hlex, Parser.init]
  exact parse_loop fuel _ (Or.inr rfl)

/-- Counterexample to claim C5: the input `"."` is non-empty and consists
solely of digits and dots, yet the lexer fails (the NUMBER regex requires a
digit before the dot), refuting the claim for arbitrary digit-and-dot
strings. -/
theorem claim_C5_counterexample :
    (".".data ≠ [] ∧ ∀ c ∈ ".".data, c.isDigit = true ∨ c = '.') ∧
    lexer ".".data = Except.error "Unexpected character: ." :=
  ⟨⟨by decide, by decide⟩, rfl⟩

/-- Claim C5 as amended: for every non-empty input that matches the NUMBER
pattern `\d+(\.\d+)?` in full — a non-empty digit run optionally followed
by a dot and a non-empty digit run — the lexer succeeds and returns exactly
one NUMBER token (carrying the whole input as lexeme) followed by EOF. -/
theorem claim_C5_number_amended (ds tl : List Char) (h1 : ds ≠ [])
    (h2 : ∀ c ∈ ds, c.isDigit = true)
    (h3 : tl = [] ∨ ∃ es, es ≠ [] ∧ (∀ c ∈ es, c.isDigit = true) ∧ tl = '.' :: es) :
    lexer (ds ++ tl) = Except.ok
      [(TokenType.NUMBER, String.mk (ds ++ tl)), (TokenType.EOF, "EOF")] := by
  apply lexer_single
  show tryFrom tokenOrder (ds ++ tl) = _
  have hm := matchNumber_full ds tl h1 h2 h3
  simp only [tokenOrder, tryFrom, tokenMatch, hm]

/-- Witness for the amended C5 at the concrete input `"12.5"`. -/
theorem claim_C5_witness :
    lexer (['1', '2'] ++ ['.', '5']) = Except.ok
      [(TokenType.NUMBER, String.mk (['1', '2'] ++ ['.', '5'])), (TokenType.EOF, "EOF")] :=
  claim_C5_number_amended ['1', '2'] ['.', '5'] (by decide) (by decide)
    (Or.inr ⟨['5'], by decide, by decide, rfl⟩)

/-- Counterexample to claim C6: the claim says a failing lex carries both
the offending position and the offending character.  The `ValueError`
message only interpolates the character: the inputs `"@"` (failure at
position 0) and `"2@"` (failure at position 1) produce the identical error,
so no decoding of the error can recover the position. -/
theorem claim_C6_counterexample :
    lexer "@".data = Except.error "Unexpected character: @" ∧
    lexer "2@".data = Except.error "Unexpected character: @" ∧
    ¬∃ pos : String → Nat,
      pos "Unexpected character: @" = 0 ∧ pos "Unexpected character: @" = 1 := by
  refine ⟨rfl, rfl, ?_⟩
  rintro ⟨pos, h0, h1⟩
  omega

/-- Claim C6 as amended: whenever the lexer fails, the input splits as
`pre ++ c :: rest` where no token pattern matches at `c` — so `c` is the
character at the failing position, the head of the unmatched suffix — and
the error message carries exactly that character (but not the position),
and no token sequence is returned. -/
theorem claim_C6_error_char (cs : List Char) (m : String)
    (h : lexer cs = Except.error m) :
    ∃ pre c rest, cs = pre ++ c :: rest ∧ tryTokens (c :: rest) = none ∧
      m = "Unexpected character: " ++ String.mk [c] :=
  lexerAux_error cs.length cs m (Nat.le_refl _) h

/-- Witness for the amended C6 at the concrete input `"2@"`: the failure is
at the suffix starting with the unmatched `@`, and the message names `@`. -/
theorem claim_C6_witness :
    ∃ pre c rest, "2@".data = pre ++ c :: rest ∧ tryTokens (c :: rest) = none ∧
      "Unexpected character: @" = "Unexpected character: " ++ String.mk [c] :=
  claim_C6_error_char "2@".data "Unexpected character: @" rfl

/-- Claim C7: parsing `"2+3*4"` succeeds and returns the AST
`+(2, *(3,4))` — multiplication binds tighter than addition. -/
theorem claim_C7_precedence :
    ∃ steps, analyze "2+3*4" 32 = Except.ok
      (ASTNode.mk "+" [ASTNode.mk "2" [],
        ASTNode.mk "*" [ASTNode.mk "3" [], ASTNode.mk "4" []]], steps) :=
  ⟨_, rfl⟩

/-- Claim C8: every successful lex yields a non-empty token list whose last
element is the EOF token and in which no earlier element has kind EOF; in
particular the empty input lexes to exactly `[EOF]`. -/
theorem claim_C8_eof_terminator :
    (∀ (cs : List Char) (ts : List Token), lexer cs = Except.ok ts →
      ts ≠ [] ∧ ts.getLast? = some (TokenType.EOF, "EOF") ∧
      ∀ t ∈ ts.dropLast, t.1 ≠ TokenType.EOF) ∧
    lexer [] = Except.ok [(TokenType.EOF, "EOF")] := by
  refine ⟨fun cs ts h => ?_, rfl⟩
  obtain ⟨h1, h2, h3, _⟩ := lexerAux_ok cs.length cs ts (Nat.le_refl _) h
  exact ⟨h1, h2, h3⟩

/-- Witness for C8 at the concrete input `"2+3"`. -/
theorem claim_C8_witness :
    ([(TokenType.NUMBER, "2"), (TokenType.PLUS, "+"), (TokenType.NUMBER, "3"),
      (TokenType.EOF, "EOF")] : List Token) ≠ [] ∧
    ([(TokenType.NUMBER, "2"), (TokenType.PLUS, "+"), (TokenType.NUMBER, "3"),
      (TokenType.EOF, "EOF")] : List Token).getLast? = some (TokenType.EOF, "EOF") ∧
    ∀ t ∈ ([(TokenType.NUMBER, "2"), (TokenType.PLUS, "+"), (TokenType.NUMBER, "3"),
      (TokenType.EOF, "EOF")] : List Token).dropLast, t.1 ≠ TokenType.EOF :=
  claim_C8_eof_terminator.1 "2+3".data _ rfl

/-- Claim C9: on every successful lex, concatenating the lexemes of all
tokens except the final EOF token, in order, reproduces the input exactly —
no character is skipped, duplicated or altered. -/
theorem claim_C9_lexeme_concat (cs : List Char) (ts : List Token)
    (h : lexer cs = Except.ok ts) :
    (ts.dropLast.map (fun t => t.2.data)).flatten = cs :=
  (lexerAux_ok cs.length cs ts (Nat.le_refl _) h).2.2.2

/-- Witness for C9 at the concrete input `"2*2"`. -/
theorem claim_C9_witness :
    (([(TokenType.NUMBER, "2"), (TokenType.MULTIPLY, "*"), (TokenType.NUMBER, "2"),
      (TokenType.EOF, "EOF")] : List Token).dropLast.map (fun t => t.2.data)).flatten
      = "2*2".data :=
  claim_C9_lexeme_concat "2*2".data _ rfl

/-- Claim C10: `advance` always increments the index, never changes the
token list, keeps `current_token` an element of that list, and once the
index has reached the final position it leaves `current_token` unchanged —
for an EOF-terminated list the cursor therefore sticks at EOF and premature
end of input surfaces as a SyntaxError mentioning EOF (shown for the input
`"2+"`), never as an out-of-bounds access. -/
theorem claim_C10_advance_safety :
    (∀ (p : Parser), p.current_token ∈ p.tokens →
      p.advance.index = p.index + 1 ∧ p.advance.tokens = p.tokens ∧
      p.advance.current_token ∈ p.tokens ∧
      (p.tokens.length ≤ p.index + 1 → p.advance.current_token = p.current_token)) ∧
    analyze "2+" 32 =
      Except.error (PError.valueError "Syntax Error: Unexpected token EOF") := by
  refine ⟨fun p hp => ?_, rfl⟩
  unfold Parser.advance
  split
  · rename_i h
    exact ⟨rfl, rfl, List.get_mem _ _ _, fun hlen => absurd h (by omega)⟩
  · exact ⟨rfl, rfl, hp, fun _ => rfl⟩

/-- Witness for C10 at the one-token state whose cursor already sits on the
final EOF token. -/
theorem claim_C10_witness :
    (Parser.advance ⟨[(TokenType.EOF, "EOF")], 0, (TokenType.EOF, "EOF"), []⟩).index = 0 + 1 ∧
    (Parser.advance ⟨[(TokenType.EOF, "EOF")], 0, (TokenType.EOF, "EOF"), []⟩).tokens
      = [(TokenType.EOF, "EOF")] ∧
    (Parser.advance ⟨[(TokenType.EOF, "EOF")], 0, (TokenType.EOF, "EOF"), []⟩).current_token
      ∈ [(TokenType.EOF, "EOF")] ∧
    (([(TokenType.EOF, "EOF")] : List Token).length ≤ 0 + 1 →
      (Parser.advance ⟨[(TokenType.EOF, "EOF")], 0, (TokenType.EOF, "EOF"), []⟩).current_token
        = (TokenType.EOF, "EOF")) :=
  claim_C10_advance_safety.1 ⟨[(TokenType.EOF, "EOF")], 0, (TokenType.EOF, "EOF"), []⟩ (by simp)

end Comp